import Mathlib

/-!
Shallow embedding of the `providers` package of the sage repository
(`provider.go`, `openai.go`, `anthropic.go`, `ollama.go`).

Go strings are modelled as lists of characters (`Str`).  The Go standard
library calls `strings.HasPrefix`, `strings.TrimPrefix`, `strings.TrimSuffix`
and `strings.Contains` are modelled by `hasPref`, `trimPref`, `trimSuffix`
and `containsSub`.  JSON unmarshalling (`encoding/json`) is external library
code; each decoder takes it as a parameter `parse : Str → Option R`, where
`none` models a `json.Unmarshal` failure (syntactically invalid JSON) and
`some r` a successful decode into the wire structure `R`.

A streaming response body is modelled as the list of text lines the
`bufio.Scanner` yields before `Scan` returns false, together with a flag
`readErr` telling whether `scanner.Err()` is non-nil afterwards.  The chunk
channel of `CompleteStream` is modelled as the list of `Chunk` values the
background goroutine sends before it returns (and the channel is closed).
-/

namespace Sage

/-- Go strings modelled as lists of characters. -/
abbrev Str := List Char

/-- Model of `strings.HasPrefix(s, pre)`. -/
def hasPref (s pre : Str) : Bool := pre.isPrefixOf s

/-- Model of `strings.TrimPrefix(s, pre)`. -/
def trimPref (s pre : Str) : Str :=
  if pre.isPrefixOf s then s.drop pre.length else s

/-- Model of `strings.HasSuffix(s, suf)`. -/
def hasSuffix (s suf : Str) : Bool := suf.isSuffixOf s

/-- Model of `strings.TrimSuffix(s, suf)`. -/
def trimSuffix (s suf : Str) : Str :=
  if suf.isSuffixOf s then s.take (s.length - suf.length) else s

/-- Model of `strings.Contains(s, sub)`: `sub` occurs contiguously in `s`. -/
def containsSub (s sub : Str) : Bool := decide (sub <:+: s)

/-- Normalized request (`providers.Request` in `provider.go`). -/
structure Request where
  Model : Str
  System : Str
  Prompt : Str
  MaxTokens : Int
  APIKey : Str
  BaseURL : Str
deriving DecidableEq

/-- Token counts (`providers.Usage`). -/
structure Usage where
  PromptTokens : Int
  CompletionTokens : Int
deriving DecidableEq

/-- Normalized response (`providers.Response`). -/
structure Response where
  Content : Str
  Model : Str
  Usage : Usage
deriving DecidableEq

/-- The error values a streaming goroutine can place in `Chunk.Error`. -/
inductive ChunkErr where
  /-- Wraps a `json.Unmarshal` failure: failed to parse stream data. -/
  | parseError : ChunkErr
  /-- Wraps a non-nil `scanner.Err()`: stream read error. -/
  | readError : ChunkErr
  /-- An explicit error field in an ollama stream line: ollama error. -/
  | ollamaError (msg : Str) : ChunkErr
deriving DecidableEq

/-- A streaming response piece (`providers.Chunk`); `Error = none` models a
nil error field. -/
structure Chunk where
  Content : Str := []
  Done : Bool := false
  Error : Option ChunkErr := none
deriving DecidableEq

/-! ### OpenAI wire model (`openai.go`) -/

/-- Wire message (`openaiMessage`). -/
structure openaiMessage where
  role : Str
  content : Str
deriving DecidableEq

/-- Wire request (`openaiRequest`); the two token fields carry `omitempty`,
so the zero value models an unset field. -/
structure openaiRequest where
  model : Str
  messages : List openaiMessage
  max_tokens : Int := 0
  max_completion_tokens : Int := 0
  stream : Bool := false
deriving DecidableEq

/-- Wire choice (`openaiChoice`). -/
structure openaiChoice where
  message : openaiMessage
  delta : openaiMessage
deriving DecidableEq

/-- Wire usage (`openaiUsage`). -/
structure openaiUsage where
  prompt_tokens : Int
  completion_tokens : Int
deriving DecidableEq

/-- Wire error (`openaiError`). -/
structure openaiError where
  message : Str
  type : Str
  code : Str
deriving DecidableEq

/-- Wire response (`openaiResponse`), also used for stream payloads. -/
structure openaiResponse where
  choices : List openaiChoice
  usage : openaiUsage
  error : Option openaiError := none
deriving DecidableEq

/-! ### Anthropic wire model (`anthropic.go`) -/

/-- Wire message (`anthropicMessage`). -/
structure anthropicMessage where
  role : Str
  content : Str
deriving DecidableEq

/-- Wire request (`anthropicRequest`); `system` carries `omitempty`, so the
empty string models an omitted field. -/
structure anthropicRequest where
  model : Str
  max_tokens : Int
  system : Str := []
  messages : List anthropicMessage
  stream : Bool := false
deriving DecidableEq

/-- Wire content block (`anthropicContent`). -/
structure anthropicContent where
  type : Str
  text : Str
deriving DecidableEq

/-- Wire usage (`anthropicUsage`). -/
structure anthropicUsage where
  input_tokens : Int
  output_tokens : Int
deriving DecidableEq

/-- Wire response (`anthropicResponse`). -/
structure anthropicResponse where
  content : List anthropicContent
  usage : anthropicUsage
deriving DecidableEq

/-- Stream delta (`anthropicStreamDelta`). -/
structure anthropicStreamDelta where
  type : Str
  text : Str
deriving DecidableEq

/-- Stream event (`anthropicStreamEvent`); `delta = none` models a nil
pointer. -/
structure anthropicStreamEvent where
  type : Str
  delta : Option anthropicStreamDelta := none
deriving DecidableEq

/-! ### Ollama wire model (`ollama.go`) -/

/-- Wire message (`ollamaMessage`). -/
structure ollamaMessage where
  role : Str
  content : Str
deriving DecidableEq

/-- Wire request (`ollamaRequest`). -/
structure ollamaRequest where
  model : Str
  messages : List ollamaMessage
  stream : Bool
deriving DecidableEq

/-- Wire response (`ollamaResponse`), also used for stream lines; a field
absent from the JSON decodes to its zero value, as in Go. -/
structure ollamaResponse where
  message : ollamaMessage
  done : Bool := false
  prompt_eval_count : Int := 0
  eval_count : Int := 0
  error : Str := []
deriving DecidableEq

/-! ### Wire framing constants -/

/-- The SSE data-line marker string. -/
def dataPref : Str := "data: ".toList

/-- The SSE event-line marker string used by the anthropic decoder. -/
def eventPref : Str := "event: ".toList

/-- The terminal sentinel line of the openai stream. -/
def openaiDoneLine : Str := "data: [DONE]".toList

/-- The anthropic event type that terminates the stream. -/
def messageStopEvent : Str := "message_stop".toList

/-- The anthropic event type that carries content. -/
def contentBlockDeltaEvent : Str := "content_block_delta".toList

/-- The anthropic delta sub-type that carries text. -/
def textDeltaType : Str := "text_delta".toList

/-! ### Stream decoders

Each Go `CompleteStream` spawns a goroutine that scans the body line by
line.  The functions below compute the list of chunks that goroutine sends
on the channel, given the scanned lines and whether `scanner.Err()` is
non-nil after the loop (`readErr`). -/

/-- Chunks emitted for one successfully parsed openai stream payload
(`openai.go` lines 170-175): the first choice's delta content, when present
and non-empty. -/
def openaiEmit (r : openaiResponse) : List Chunk :=
  match r.choices with
  | [] => []
  | c :: _ => if c.delta.content ≠ [] then [{ Content := c.delta.content }] else []

/-- The openai stream decoder goroutine (`openai.go` lines 138-181). -/
def openaiDecode (parse : Str → Option openaiResponse) (readErr : Bool) :
    List Str → List Chunk
  | [] => if readErr then [{ Error := some .readError }] else []
  | line :: rest =>
    if line = [] then
      openaiDecode parse readErr rest
    else if line = openaiDoneLine then
      [{ Done := true }]
    else if ! hasPref line dataPref then
      openaiDecode parse readErr rest
    else
      match parse (trimPref line dataPref) with
      | none => [{ Error := some .parseError }]
      | some r => openaiEmit r ++ openaiDecode parse readErr rest

/-- Chunks emitted for one successfully parsed anthropic
`content_block_delta` payload (`anthropic.go` lines 205-207): the delta
text, when the delta is non-nil, of type `text_delta`, and non-empty. -/
def anthropicEmit (ev : anthropicStreamEvent) : List Chunk :=
  match ev.delta with
  | none => []
  | some d => if d.type = textDeltaType ∧ d.text ≠ [] then [{ Content := d.text }] else []

/-- The anthropic stream decoder goroutine (`anthropic.go` lines 160-213),
parametrized by the current event type (the goroutine's `currentEvent`
local, which starts as the empty string). -/
def anthropicDecodeFrom (parse : Str → Option anthropicStreamEvent) (readErr : Bool)
    (currentEvent : Str) : List Str → List Chunk
  | [] => if readErr then [{ Error := some .readError }] else []
  | line :: rest =>
    if hasPref line eventPref then
      anthropicDecodeFrom parse readErr (trimPref line eventPref) rest
    else if line = [] then
      anthropicDecodeFrom parse readErr currentEvent rest
    else if ! hasPref line dataPref then
      anthropicDecodeFrom parse readErr currentEvent rest
    else if currentEvent = messageStopEvent then
      [{ Done := true }]
    else if currentEvent ≠ contentBlockDeltaEvent then
      anthropicDecodeFrom parse readErr currentEvent rest
    else
      match parse (trimPref line dataPref) with
      | none => [{ Error := some .parseError }]
      | some ev => anthropicEmit ev ++ anthropicDecodeFrom parse readErr currentEvent rest

/-- The anthropic stream decoder started with an empty `currentEvent`. -/
def anthropicDecode (parse : Str → Option anthropicStreamEvent) (readErr : Bool)
    (lines : List Str) : List Chunk :=
  anthropicDecodeFrom parse readErr [] lines

/-- The ollama stream decoder goroutine (`ollama.go` lines 122-161). -/
def ollamaDecode (parse : Str → Option ollamaResponse) (readErr : Bool) :
    List Str → List Chunk
  | [] => if readErr then [{ Error := some .readError }] else []
  | line :: rest =>
    if line = [] then
      ollamaDecode parse readErr rest
    else
      match parse line with
      | none => [{ Error := some .parseError }]
      | some r =>
        if r.error ≠ [] then
          [{ Error := some (.ollamaError r.error) }]
        else
          (if r.message.content ≠ [] then [{ Content := r.message.content }] else [])
          ++ (if r.done then [{ Done := true }] else ollamaDecode parse readErr rest)

/-! ### Request builders -/

/-- `openai.usesMaxCompletionTokens` (`openai.go` lines 220-228). -/
def openaiUsesMaxCompletionTokens (model : Str) : Bool :=
  hasPref model "o1".toList || hasPref model "o3".toList ||
  containsSub model "gpt-4o".toList || containsSub model "gpt-5".toList

/-- `openai.buildRequest` (`openai.go` lines 186-217). -/
def openaiBuildRequest (req : Request) (stream : Bool) : openaiRequest :=
  let messages :=
    (if req.System ≠ [] then [{ role := "system".toList, content := req.System }] else [])
    ++ [({ role := "user".toList, content := req.Prompt } : openaiMessage)]
  let r : openaiRequest := { model := req.Model, messages := messages, stream := stream }
  if req.MaxTokens > 0 then
    if openaiUsesMaxCompletionTokens req.Model then
      { r with max_completion_tokens := req.MaxTokens }
    else
      { r with max_tokens := req.MaxTokens }
  else r

/-- `anthropic.buildRequest` (`anthropic.go` lines 218-235): the system
prompt goes to the separate `system` field, never into `messages`, and the
token limit defaults to 1024 when the caller supplies none. -/
def anthropicBuildRequest (req : Request) (stream : Bool) : anthropicRequest :=
  let messages := [({ role := "user".toList, content := req.Prompt } : anthropicMessage)]
  let maxTokens := if req.MaxTokens = 0 then 1024 else req.MaxTokens
  { model := req.Model, max_tokens := maxTokens, system := req.System,
    messages := messages, stream := stream }

/-- `ollama.buildRequest` (`ollama.go` lines 166-186). -/
def ollamaBuildRequest (req : Request) (stream : Bool) : ollamaRequest :=
  let messages :=
    (if req.System ≠ [] then [{ role := "system".toList, content := req.System }] else [])
    ++ [({ role := "user".toList, content := req.Prompt } : ollamaMessage)]
  { model := req.Model, messages := messages, stream := stream }

/-! ### Endpoint construction -/

/-- `openaiDefaultURL` (`openai.go` line 13). -/
def openaiDefaultURL : Str := "https://api.openai.com/v1/chat/completions".toList

/-- `openai.endpoint` (`openai.go` lines 230-235). -/
def openaiEndpoint (req : Request) : Str :=
  if req.BaseURL ≠ [] then
    trimSuffix req.BaseURL "/".toList ++ "/v1/chat/completions".toList
  else openaiDefaultURL

/-- `anthropicDefaultURL` (`anthropic.go` line 14). -/
def anthropicDefaultURL : Str := "https://api.anthropic.com/v1/messages".toList

/-- `anthropic.endpoint` (`anthropic.go` lines 237-242). -/
def anthropicEndpoint (req : Request) : Str :=
  if req.BaseURL ≠ [] then
    trimSuffix req.BaseURL "/".toList ++ "/v1/messages".toList
  else anthropicDefaultURL

/-- `ollamaDefaultURL` (`ollama.go` line 13). -/
def ollamaDefaultURL : Str := "http://localhost:11434".toList

/-- `ollama.endpoint` (`ollama.go` lines 188-194). -/
def ollamaEndpoint (req : Request) : Str :=
  let baseURL := if req.BaseURL = [] then ollamaDefaultURL else req.BaseURL
  trimSuffix baseURL "/".toList ++ "/api/chat".toList

/-! ### Headers -/

/-- `ollama.setHeaders` (`ollama.go` lines 196-203), modelled as the list of
header name/value pairs set on the outgoing request. -/
def ollamaSetHeaders (apiKey : Str) : List (Str × Str) :=
  [("Content-Type".toList, "application/json".toList)]
  ++ (if apiKey ≠ [] then
        [("Authorization".toList, "Bearer ".toList ++ apiKey)]
      else [])

/-! ### Blocking completion, from the decoded 200 body onward

`Complete` performs HTTP I/O first; the functions below model its pure
tail: what it returns once a 200 response body has been successfully
JSON-decoded into the wire response structure. -/

/-- The classified errors the modelled tail of `Complete` can produce. -/
inductive CompleteErr where
  /-- Zero choices / zero content blocks: no choices in response, or no
  content in response. -/
  | emptyResponse : CompleteErr
  /-- An explicit error field in a decoded ollama body: ollama error. -/
  | ollamaError (msg : Str) : CompleteErr
deriving DecidableEq

/-- `openai.Complete` from the decoded body onward (`openai.go`
lines 97-108). -/
def openaiCompleteBody (req : Request) (r : openaiResponse) :
    Except CompleteErr Response :=
  match r.choices with
  | [] => .error .emptyResponse
  | c :: _ =>
    .ok { Content := c.message.content, Model := req.Model,
          Usage := { PromptTokens := r.usage.prompt_tokens,
                     CompletionTokens := r.usage.completion_tokens } }

/-- The extraction loop of `anthropic.Complete` (`anthropic.go`
lines 114-121): the text of the first content block of type `text`,
defaulting to the empty string. -/
def anthropicFirstText : List anthropicContent → Str
  | [] => []
  | c :: rest => if c.type = "text".toList then c.text else anthropicFirstText rest

/-- `anthropic.Complete` from the decoded body onward (`anthropic.go`
lines 110-130). -/
def anthropicCompleteBody (req : Request) (r : anthropicResponse) :
    Except CompleteErr Response :=
  if r.content = [] then .error .emptyResponse
  else
    .ok { Content := anthropicFirstText r.content, Model := req.Model,
          Usage := { PromptTokens := r.usage.input_tokens,
                     CompletionTokens := r.usage.output_tokens } }

/-! ### Vocabulary for the stream-decoder properties -/

/-- An SSE data line carrying payload `p`. -/
def dataLine (p : Str) : Str := dataPref ++ p

/-- An SSE event line announcing event type `e`. -/
def eventLine (e : Str) : Str := eventPref ++ e

/-- A chunk carrying only content. -/
def contentChunk (c : Str) : Chunk := { Content := c }

/-- The terminal success chunk. -/
def doneChunk : Chunk := { Done := true }

/-- The chunk reporting a malformed stream payload. -/
def parseErrChunk : Chunk := { Error := some .parseError }

/-- A well-formed openai content delta: the payload `p` is not the body of
the terminal sentinel, and it decodes to a response whose first choice
carries exactly the non-empty delta content `c`. -/
abbrev openaiGoodDelta (parse : Str → Option openaiResponse) (p c : Str) : Prop :=
  dataLine p ≠ openaiDoneLine ∧ c ≠ [] ∧
  (parse p).map openaiEmit = some [contentChunk c]

/-- A well-formed anthropic content delta: the payload `p` decodes to an
event whose delta is a `text_delta` with exactly the non-empty text `c`. -/
abbrev anthropicGoodDelta (parse : Str → Option anthropicStreamEvent) (p c : Str) : Prop :=
  c ≠ [] ∧ (parse p).map anthropicEmit = some [contentChunk c]

/-- A well-formed ollama content delta: the non-empty line `p` decodes to a
response with no error, non-empty message content `c`, and `done` false. -/
abbrev ollamaGoodDelta (parse : Str → Option ollamaResponse) (p c : Str) : Prop :=
  p ≠ [] ∧ c ≠ [] ∧
  (parse p).map (fun r => (r.error, r.message.content, r.done)) = some ([], c, false)

/-- An ollama terminal line: the non-empty line `p` decodes to a response
with no error, empty message content, and `done` true. -/
abbrev ollamaStopLine (parse : Str → Option ollamaResponse) (p : Str) : Prop :=
  p ≠ [] ∧
  (parse p).map (fun r => (r.error, r.message.content, r.done)) = some ([], [], true)

/-- The pair of wire lines encoding one anthropic content delta. -/
def anthropicDeltaLines (p : Str) : List Str :=
  [eventLine contentBlockDeltaEvent, dataLine p]

/-- Fixture payload table for the openai decoder, used to instantiate the
stream theorems at concrete inputs. -/
def oparseFix : Str → Option openaiResponse := fun p =>
  if p = ['A'] then
    some { choices := [{ message := { role := [], content := [] },
                         delta := { role := [], content := ['x'] } }],
           usage := { prompt_tokens := 0, completion_tokens := 0 } }
  else if p = ['B'] then
    some { choices := [{ message := { role := [], content := [] },
                         delta := { role := [], content := ['y'] } }],
           usage := { prompt_tokens := 0, completion_tokens := 0 } }
  else none

/-- Fixture payload table for the anthropic decoder. -/
def aparseFix : Str → Option anthropicStreamEvent := fun p =>
  if p = ['A'] then
    some { type := contentBlockDeltaEvent,
           delta := some { type := textDeltaType, text := ['x'] } }
  else if p = ['B'] then
    some { type := contentBlockDeltaEvent,
           delta := some { type := textDeltaType, text := ['y'] } }
  else none

/-- Fixture payload table for the ollama decoder. -/
def lparseFix : Str → Option ollamaResponse := fun p =>
  if p = ['A'] then some { message := { role := [], content := ['x'] } }
  else if p = ['B'] then some { message := { role := [], content := ['y'] } }
  else if p = ['S'] then some { message := { role := [], content := [] }, done := true }
  else none

/-! ## Framing lemmas -/

theorem dataPref_eq : dataPref = 'd' :: 'a' :: 't' :: 'a' :: ':' :: ' ' :: [] := rfl

theorem eventPref_eq : eventPref = 'e' :: 'v' :: 'e' :: 'n' :: 't' :: ':' :: ' ' :: [] := rfl

theorem hasPref_append_self (pre s : Str) : hasPref (pre ++ s) pre = true := by
  simp [hasPref]

theorem trimPref_append (pre s : Str) : trimPref (pre ++ s) pre = s := by
  simp [trimPref]

theorem dataLine_ne_nil (p : Str) : dataLine p ≠ [] := by
  simp [dataLine, dataPref_eq]

theorem eventLine_ne_nil (e : Str) : eventLine e ≠ [] := by
  simp [eventLine, eventPref_eq]

theorem hasPref_dataLine (p : Str) : hasPref (dataLine p) dataPref = true :=
  hasPref_append_self _ _

theorem trimPref_dataLine (p : Str) : trimPref (dataLine p) dataPref = p :=
  trimPref_append _ _

theorem hasPref_eventLine (e : Str) : hasPref (eventLine e) eventPref = true :=
  hasPref_append_self _ _

theorem trimPref_eventLine (e : Str) : trimPref (eventLine e) eventPref = e :=
  trimPref_append _ _

theorem dataLine_not_event (p : Str) : hasPref (dataLine p) eventPref = false := by
  simp [hasPref, dataLine, dataPref_eq, eventPref_eq, List.isPrefixOf_cons₂]

theorem eventLine_not_data (e : Str) : hasPref (eventLine e) dataPref = false := by
  simp [hasPref, eventLine, dataPref_eq, eventPref_eq, List.isPrefixOf_cons₂]

/-! ## Decoder step lemmas -/

theorem openaiDecode_doneLine (parse : Str → Option openaiResponse) (re : Bool)
    (rest : List Str) :
    openaiDecode parse re (openaiDoneLine :: rest) = [doneChunk] := by
  rw [openaiDecode, if_neg (by decide), if_pos rfl]
  rfl

theorem openaiDecode_dataLine (parse : Str → Option openaiResponse) (re : Bool)
    (p : Str) (rest : List Str) (h : dataLine p ≠ openaiDoneLine) :
    openaiDecode parse re (dataLine p :: rest)
      = match parse p with
        | none => [parseErrChunk]
        | some r => openaiEmit r ++ openaiDecode parse re rest := by
  rw [openaiDecode, if_neg (dataLine_ne_nil p), if_neg h]
  simp [hasPref_dataLine, trimPref_dataLine, parseErrChunk]

theorem openaiDecode_deltas (parse : Str → Option openaiResponse) (re : Bool)
    (deltas : List (Str × Str)) (tail : List Str)
    (h : ∀ pc ∈ deltas, openaiGoodDelta parse pc.1 pc.2) :
    openaiDecode parse re (deltas.map (fun pc => dataLine pc.1) ++ tail)
      = deltas.map (fun pc => contentChunk pc.2) ++ openaiDecode parse re tail := by
  induction deltas with
  | nil => simp
  | cons pc rest ih =>
    obtain ⟨hne, hc, hp⟩ := h pc (List.mem_cons_self _ _)
    rw [List.map_cons, List.cons_append, openaiDecode_dataLine parse re pc.1 _ hne]
    cases hpp : parse pc.1 with
    | none => rw [hpp] at hp; simp at hp
    | some r =>
      rw [hpp] at hp
      simp only [Option.map_some'] at hp
      rw [ih (fun x hx => h x (List.mem_cons_of_mem _ hx))]
      simp [Option.some.injEq] at hp
      simp [hp]

theorem anthropicDecodeFrom_event (parse : Str → Option anthropicStreamEvent)
    (re : Bool) (e ev : Str) (rest : List Str) :
    anthropicDecodeFrom parse re e (eventLine ev :: rest)
      = anthropicDecodeFrom parse re ev rest := by
  rw [anthropicDecodeFrom]
  simp [hasPref_eventLine, trimPref_eventLine]

theorem anthropicDecodeFrom_data_stop (parse : Str → Option anthropicStreamEvent)
    (re : Bool) (p : Str) (rest : List Str) :
    anthropicDecodeFrom parse re messageStopEvent (dataLine p :: rest)
      = [doneChunk] := by
  rw [anthropicDecodeFrom]
  simp [dataLine_not_event, dataLine_ne_nil, hasPref_dataLine, doneChunk]

theorem anthropicDecodeFrom_data_delta (parse : Str → Option anthropicStreamEvent)
    (re : Bool) (p : Str) (rest : List Str) :
    anthropicDecodeFrom parse re contentBlockDeltaEvent (dataLine p :: rest)
      = match parse p with
        | none => [parseErrChunk]
        | some ev =>
          anthropicEmit ev ++ anthropicDecodeFrom parse re contentBlockDeltaEvent rest := by
  rw [anthropicDecodeFrom]
  simp [dataLine_not_event, dataLine_ne_nil, hasPref_dataLine, trimPref_dataLine,
    parseErrChunk, show contentBlockDeltaEvent ≠ messageStopEvent by decide]

theorem anthropicDecodeFrom_stopTail (parse : Str → Option anthropicStreamEvent)
    (re : Bool) (e q : Str) (rest : List Str) :
    anthropicDecodeFrom parse re e (eventLine messageStopEvent :: dataLine q :: rest)
      = [doneChunk] := by
  rw [anthropicDecodeFrom_event, anthropicDecodeFrom_data_stop]

theorem anthropicDecodeFrom_deltas (parse : Str → Option anthropicStreamEvent)
    (re : Bool) (e : Str) (deltas : List (Str × Str)) (tail : List Str)
    (h : ∀ pc ∈ deltas, anthropicGoodDelta parse pc.1 pc.2) :
    anthropicDecodeFrom parse re e
        (deltas.flatMap (fun pc => anthropicDeltaLines pc.1) ++ tail)
      = deltas.map (fun pc => contentChunk pc.2)
        ++ anthropicDecodeFrom parse re
             (if deltas = [] then e else contentBlockDeltaEvent) tail := by
  induction deltas generalizing e with
  | nil => simp
  | cons pc rest ih =>
    obtain ⟨hc, hp⟩ := h pc (List.mem_cons_self _ _)
    rw [List.flatMap_cons]
    show anthropicDecodeFrom parse re e
        (eventLine contentBlockDeltaEvent :: dataLine pc.1 :: (rest.flatMap _ ++ tail)) = _
    rw [anthropicDecodeFrom_event, anthropicDecodeFrom_data_delta]
    cases hpp : parse pc.1 with
    | none => rw [hpp] at hp; simp at hp
    | some ev =>
      rw [hpp] at hp
      simp only [Option.map_some', Option.some.injEq] at hp
      rw [ih contentBlockDeltaEvent (fun x hx => h x (List.mem_cons_of_mem _ hx))]
      cases rest with
      | nil => simp [hp]
      | cons y ys => simp [hp]

theorem ollamaDecode_delta (parse : Str → Option ollamaResponse) (re : Bool)
    (p c : Str) (rest : List Str) (h : ollamaGoodDelta parse p c) :
    ollamaDecode parse re (p :: rest)
      = contentChunk c :: ollamaDecode parse re rest := by
  obtain ⟨hpne, hc, hp⟩ := h
  rw [ollamaDecode, if_neg hpne]
  cases hpp : parse p with
  | none => rw [hpp] at hp; simp at hp
  | some r =>
    rw [hpp] at hp
    simp only [Option.map_some', Option.some.injEq, Prod.mk.injEq] at hp
    obtain ⟨he, hcc, hd⟩ := hp
    simp [he, hcc, hd, hc, contentChunk]

theorem ollamaDecode_stop (parse : Str → Option ollamaResponse) (re : Bool)
    (q : Str) (rest : List Str) (h : ollamaStopLine parse q) :
    ollamaDecode parse re (q :: rest) = [doneChunk] := by
  obtain ⟨hqne, hq⟩ := h
  rw [ollamaDecode, if_neg hqne]
  cases hpp : parse q with
  | none => rw [hpp] at hq; simp at hq
  | some r =>
    rw [hpp] at hq
    simp only [Option.map_some', Option.some.injEq, Prod.mk.injEq] at hq
    obtain ⟨he, hcc, hd⟩ := hq
    simp [he, hcc, hd, doneChunk]

theorem ollamaDecode_deltas (parse : Str → Option ollamaResponse) (re : Bool)
    (deltas : List (Str × Str)) (tail : List Str)
    (h : ∀ pc ∈ deltas, ollamaGoodDelta parse pc.1 pc.2) :
    ollamaDecode parse re (deltas.map Prod.fst ++ tail)
      = deltas.map (fun pc => contentChunk pc.2) ++ ollamaDecode parse re tail := by
  induction deltas with
  | nil => simp
  | cons pc rest ih =>
    rw [List.map_cons, List.cons_append,
      ollamaDecode_delta parse re pc.1 pc.2 _ (h pc (List.mem_cons_self _ _)),
      ih (fun x hx => h x (List.mem_cons_of_mem _ hx))]
    simp

/-! ## Claim theorems -/

/-- C1, counterexample.  A response body exhausted without any terminal
marker and without a transport read error does not produce an error chunk:
on an empty body every decoder sends nothing at all before the channel is
closed, a silent close rather than the claimed UnexpectedEOF error. -/
theorem bodyExhaustion_silent_cex :
    openaiDecode (fun _ => none) false [] = []
    ∧ anthropicDecode (fun _ => none) false [] = []
    ∧ ollamaDecode (fun _ => none) false [] = [] :=
  ⟨rfl, rfl, rfl⟩

/-- C1, amended.  If the body is exhausted without a terminal marker having
been seen and without a transport read error, each decoder closes the stream
silently: the chunks sent are exactly the content chunks of the well-formed
deltas read, with no terminal chunk — neither done nor error — after them. -/
theorem bodyExhaustion_silent_close
    (oparse : Str → Option openaiResponse)
    (aparse : Str → Option anthropicStreamEvent)
    (lparse : Str → Option ollamaResponse)
    (odeltas adeltas ldeltas : List (Str × Str))
    (ho : ∀ pc ∈ odeltas, openaiGoodDelta oparse pc.1 pc.2)
    (ha : ∀ pc ∈ adeltas, anthropicGoodDelta aparse pc.1 pc.2)
    (hl : ∀ pc ∈ ldeltas, ollamaGoodDelta lparse pc.1 pc.2) :
    openaiDecode oparse false (odeltas.map (fun pc => dataLine pc.1))
      = odeltas.map (fun pc => contentChunk pc.2)
    ∧ anthropicDecode aparse false (adeltas.flatMap (fun pc => anthropicDeltaLines pc.1))
      = adeltas.map (fun pc => contentChunk pc.2)
    ∧ ollamaDecode lparse false (ldeltas.map Prod.fst)
      = ldeltas.map (fun pc => contentChunk pc.2) := by
  refine ⟨?_, ?_, ?_⟩
  · have h := openaiDecode_deltas oparse false odeltas [] ho
    simpa [openaiDecode] using h
  · have h := anthropicDecodeFrom_deltas aparse false [] adeltas [] ha
    simp only [anthropicDecode]
    cases adeltas with
    | nil => simp [anthropicDecodeFrom]
    | cons x xs => simpa [anthropicDecodeFrom] using h
  · have h := ollamaDecode_deltas lparse false ldeltas [] hl
    simpa [ollamaDecode] using h

/-- C1, witness for the amended theorem at concrete inputs. -/
theorem bodyExhaustion_silent_close_witness :
    openaiDecode oparseFix false [dataLine ['A'], dataLine ['B']]
      = [contentChunk ['x'], contentChunk ['y']]
    ∧ anthropicDecode aparseFix false
        (anthropicDeltaLines ['A'] ++ anthropicDeltaLines ['B'])
      = [contentChunk ['x'], contentChunk ['y']]
    ∧ ollamaDecode lparseFix false [['A'], ['B']]
      = [contentChunk ['x'], contentChunk ['y']] :=
  bodyExhaustion_silent_close oparseFix aparseFix lparseFix
    [(['A'], ['x']), (['B'], ['y'])] [(['A'], ['x']), (['B'], ['y'])]
    [(['A'], ['x']), (['B'], ['y'])]
    (by decide) (by decide) (by decide)

/-- C2.  Fed K well-formed content deltas followed by the provider's
terminal marker, each decoder sends exactly the K content chunks in the
original order, then exactly one done chunk, and nothing after it. -/
theorem script_deltas_then_terminal
    (oparse : Str → Option openaiResponse)
    (aparse : Str → Option anthropicStreamEvent)
    (lparse : Str → Option ollamaResponse)
    (odeltas adeltas ldeltas : List (Str × Str)) (q stopLine : Str) (re : Bool)
    (ho : ∀ pc ∈ odeltas, openaiGoodDelta oparse pc.1 pc.2)
    (ha : ∀ pc ∈ adeltas, anthropicGoodDelta aparse pc.1 pc.2)
    (hl : ∀ pc ∈ ldeltas, ollamaGoodDelta lparse pc.1 pc.2)
    (hstop : ollamaStopLine lparse stopLine) :
    openaiDecode oparse re (odeltas.map (fun pc => dataLine pc.1) ++ [openaiDoneLine])
      = odeltas.map (fun pc => contentChunk pc.2) ++ [doneChunk]
    ∧ anthropicDecode aparse re
        (adeltas.flatMap (fun pc => anthropicDeltaLines pc.1)
          ++ [eventLine messageStopEvent, dataLine q])
      = adeltas.map (fun pc => contentChunk pc.2) ++ [doneChunk]
    ∧ ollamaDecode lparse re (ldeltas.map Prod.fst ++ [stopLine])
      = ldeltas.map (fun pc => contentChunk pc.2) ++ [doneChunk] := by
  refine ⟨?_, ?_, ?_⟩
  · rw [openaiDecode_deltas oparse re odeltas _ ho, openaiDecode_doneLine]
  · rw [anthropicDecode, anthropicDecodeFrom_deltas aparse re [] adeltas _ ha,
      anthropicDecodeFrom_stopTail]
  · rw [ollamaDecode_deltas lparse re ldeltas _ hl, ollamaDecode_stop _ _ _ _ hstop]

/-- C2, witness at concrete inputs with K = 2. -/
theorem script_deltas_then_terminal_witness :
    openaiDecode oparseFix false
        [dataLine ['A'], dataLine ['B'], openaiDoneLine]
      = [contentChunk ['x'], contentChunk ['y'], doneChunk]
    ∧ anthropicDecode aparseFix false
        (anthropicDeltaLines ['A'] ++ anthropicDeltaLines ['B']
          ++ [eventLine messageStopEvent, dataLine "{}".toList])
      = [contentChunk ['x'], contentChunk ['y'], doneChunk]
    ∧ ollamaDecode lparseFix false [['A'], ['B'], ['S']]
      = [contentChunk ['x'], contentChunk ['y'], doneChunk] :=
  script_deltas_then_terminal oparseFix aparseFix lparseFix
    [(['A'], ['x']), (['B'], ['y'])] [(['A'], ['x']), (['B'], ['y'])]
    [(['A'], ['x']), (['B'], ['y'])] "{}".toList ['S'] false
    (by decide) (by decide) (by decide) (by decide)

/-- C3, counterexample.  An input sequence containing an
`event: message_stop` line with no accompanying data payload line is not
terminated with a done chunk: the decoder emits nothing at all. -/
theorem messageStop_no_data_cex :
    anthropicDecode (fun _ => none) false [eventLine messageStopEvent] = [] := by
  decide

/-- C3, amended.  Once the current event type is `message_stop`, the next
data line — regardless of its payload — terminates the stream with a done
chunk; this also holds when the `event: message_stop` line is immediately
followed by a data line.  When no data line follows the event line, no
terminal chunk is emitted. -/
theorem messageStop_data_terminates
    (parse : Str → Option anthropicStreamEvent) (re : Bool) (e q : Str)
    (rest : List Str) :
    anthropicDecodeFrom parse re messageStopEvent (dataLine q :: rest) = [doneChunk]
    ∧ anthropicDecodeFrom parse re e
        (eventLine messageStopEvent :: dataLine q :: rest) = [doneChunk]
    ∧ anthropicDecodeFrom parse false e [eventLine messageStopEvent] = [] := by
  refine ⟨anthropicDecodeFrom_data_stop parse re q rest, ?_, ?_⟩
  · rw [anthropicDecodeFrom_stopTail]
  · rw [anthropicDecodeFrom_event]
    rfl

/-- C5.  A syntactically invalid JSON payload line injected mid-stream makes
each decoder send all content chunks derived from the lines strictly before
it, then exactly one error chunk, then nothing further — whatever lines
follow the bad one. -/
theorem malformed_line_stops_stream
    (oparse : Str → Option openaiResponse)
    (aparse : Str → Option anthropicStreamEvent)
    (lparse : Str → Option ollamaResponse)
    (odeltas adeltas ldeltas : List (Str × Str)) (obad abad lbad : Str)
    (orest arest lrest : List Str) (re : Bool)
    (ho : ∀ pc ∈ odeltas, openaiGoodDelta oparse pc.1 pc.2)
    (hobad : oparse obad = none) (hobadD : dataLine obad ≠ openaiDoneLine)
    (ha : ∀ pc ∈ adeltas, anthropicGoodDelta aparse pc.1 pc.2)
    (habad : aparse abad = none)
    (hl : ∀ pc ∈ ldeltas, ollamaGoodDelta lparse pc.1 pc.2)
    (hlbad : lparse lbad = none) (hlbadNe : lbad ≠ []) :
    openaiDecode oparse re
        (odeltas.map (fun pc => dataLine pc.1) ++ dataLine obad :: orest)
      = odeltas.map (fun pc => contentChunk pc.2) ++ [parseErrChunk]
    ∧ anthropicDecode aparse re
        (adeltas.flatMap (fun pc => anthropicDeltaLines pc.1)
          ++ eventLine contentBlockDeltaEvent :: dataLine abad :: arest)
      = adeltas.map (fun pc => contentChunk pc.2) ++ [parseErrChunk]
    ∧ ollamaDecode lparse re (ldeltas.map Prod.fst ++ lbad :: lrest)
      = ldeltas.map (fun pc => contentChunk pc.2) ++ [parseErrChunk] := by
  refine ⟨?_, ?_, ?_⟩
  · rw [openaiDecode_deltas oparse re odeltas _ ho,
      openaiDecode_dataLine oparse re obad _ hobadD, hobad]
  · rw [anthropicDecode, anthropicDecodeFrom_deltas aparse re [] adeltas _ ha,
      anthropicDecodeFrom_event, anthropicDecodeFrom_data_delta, habad]
  · rw [ollamaDecode_deltas lparse re ldeltas _ hl, ollamaDecode, if_neg hlbadNe, hlbad]
    rfl

/-- C5, witness at concrete inputs: one good delta, then a bad line, then a
further well-formed line that must not be decoded. -/
theorem malformed_line_stops_stream_witness :
    openaiDecode oparseFix false
        [dataLine ['A'], dataLine ['Z'], dataLine ['B']]
      = [contentChunk ['x'], parseErrChunk]
    ∧ anthropicDecode aparseFix false
        (anthropicDeltaLines ['A']
          ++ eventLine contentBlockDeltaEvent :: dataLine ['Z'] :: anthropicDeltaLines ['B'])
      = [contentChunk ['x'], parseErrChunk]
    ∧ ollamaDecode lparseFix false [['A'], ['Z'], ['B']]
      = [contentChunk ['x'], parseErrChunk] :=
  malformed_line_stops_stream oparseFix aparseFix lparseFix
    [(['A'], ['x'])] [(['A'], ['x'])] [(['A'], ['x'])]
    ['Z'] ['Z'] ['Z'] [dataLine ['B']] (anthropicDeltaLines ['B']) [['B']] false
    (by decide) (by decide) (by decide) (by decide) (by decide) (by decide)
    (by decide) (by decide)

/-- C4.  The openai request builder: with no token limit neither wire field
is set; with a limit, `max_completion_tokens` is used exactly for models
with prefix `o1` or `o3` or containing `gpt-4o` or `gpt-5`, and
`max_tokens` for all others, the unused field staying 0 (omitted). -/
theorem openai_token_limit_fields (req : Request) (stream : Bool) :
    (req.MaxTokens = 0 →
      (openaiBuildRequest req stream).max_tokens = 0
      ∧ (openaiBuildRequest req stream).max_completion_tokens = 0)
    ∧ (req.MaxTokens > 0 →
      (hasPref req.Model "o1".toList = true ∨ hasPref req.Model "o3".toList = true
        ∨ containsSub req.Model "gpt-4o".toList = true
        ∨ containsSub req.Model "gpt-5".toList = true) →
      (openaiBuildRequest req stream).max_completion_tokens = req.MaxTokens
      ∧ (openaiBuildRequest req stream).max_tokens = 0)
    ∧ (req.MaxTokens > 0 →
      hasPref req.Model "o1".toList = false → hasPref req.Model "o3".toList = false →
      containsSub req.Model "gpt-4o".toList = false →
      containsSub req.Model "gpt-5".toList = false →
      (openaiBuildRequest req stream).max_tokens = req.MaxTokens
      ∧ (openaiBuildRequest req stream).max_completion_tokens = 0) := by
  refine ⟨fun h0 => ?_, fun hpos hset => ?_, fun hpos h1 h2 h3 h4 => ?_⟩
  · have h : ¬ req.MaxTokens > 0 := by omega
    simp [openaiBuildRequest, h]
  · have hu : openaiUsesMaxCompletionTokens req.Model = true := by
      unfold openaiUsesMaxCompletionTokens
      rcases hset with h | h | h | h <;>
        simp only [h, Bool.or_true, Bool.true_or, Bool.true_eq]
    simp [openaiBuildRequest, hpos, hu]
  · have hu : openaiUsesMaxCompletionTokens req.Model = false := by
      unfold openaiUsesMaxCompletionTokens
      rw [h1, h2, h3, h4]
      rfl
    simp [openaiBuildRequest, hpos, hu]

/-- C4, witness: a request without limit, an `o1` request with limit, and a
classic-model request with limit. -/
theorem openai_token_limit_fields_witness :
    ((openaiBuildRequest ⟨"gpt-4".toList, [], [], 0, [], []⟩ false).max_tokens = 0
      ∧ (openaiBuildRequest ⟨"gpt-4".toList, [], [], 0, [], []⟩ false).max_completion_tokens = 0)
    ∧ ((openaiBuildRequest ⟨"o1-mini".toList, [], [], 7, [], []⟩ false).max_completion_tokens = 7
      ∧ (openaiBuildRequest ⟨"o1-mini".toList, [], [], 7, [], []⟩ false).max_tokens = 0)
    ∧ ((openaiBuildRequest ⟨"gpt-4-turbo".toList, [], [], 7, [], []⟩ false).max_tokens = 7
      ∧ (openaiBuildRequest ⟨"gpt-4-turbo".toList, [], [], 7, [], []⟩ false).max_completion_tokens = 0) :=
  ⟨(openai_token_limit_fields ⟨"gpt-4".toList, [], [], 0, [], []⟩ false).1 rfl,
   (openai_token_limit_fields ⟨"o1-mini".toList, [], [], 7, [], []⟩ false).2.1
     (by decide) (Or.inl (by decide)),
   (openai_token_limit_fields ⟨"gpt-4-turbo".toList, [], [], 7, [], []⟩ false).2.2
     (by decide) (by decide) (by decide) (by decide) (by decide)⟩

/-- C6.  With an empty system prompt no system message or field appears;
with a non-empty one, openai and ollama place exactly one system message
before the user message, and anthropic carries it in the separate `system`
field while its message array holds only the user message. -/
theorem system_prompt_placement (req : Request) (stream : Bool) :
    (req.System = [] →
      (openaiBuildRequest req stream).messages
        = [{ role := "user".toList, content := req.Prompt }]
      ∧ (ollamaBuildRequest req stream).messages
        = [{ role := "user".toList, content := req.Prompt }]
      ∧ (anthropicBuildRequest req stream).system = [])
    ∧ (req.System ≠ [] →
      (openaiBuildRequest req stream).messages
        = [{ role := "system".toList, content := req.System },
           { role := "user".toList, content := req.Prompt }]
      ∧ (ollamaBuildRequest req stream).messages
        = [{ role := "system".toList, content := req.System },
           { role := "user".toList, content := req.Prompt }]
      ∧ (anthropicBuildRequest req stream).system = req.System)
    ∧ (anthropicBuildRequest req stream).messages
        = [{ role := "user".toList, content := req.Prompt }] := by
  have hmsg : ∀ s : Bool, (openaiBuildRequest req s).messages
      = (if req.System ≠ [] then [{ role := "system".toList, content := req.System }] else [])
        ++ [({ role := "user".toList, content := req.Prompt } : openaiMessage)] := by
    intro s
    unfold openaiBuildRequest
    by_cases h : req.MaxTokens > 0
    · by_cases hu : openaiUsesMaxCompletionTokens req.Model <;> simp [h, hu]
    · simp [h]
  refine ⟨fun h => ?_, fun h => ?_, rfl⟩ <;>
    simp [hmsg, ollamaBuildRequest, anthropicBuildRequest, h]

/-- C6, witness: an empty and a non-empty system prompt. -/
theorem system_prompt_placement_witness :
    ((openaiBuildRequest ⟨['m'], [], ['p'], 0, [], []⟩ false).messages
        = [{ role := "user".toList, content := ['p'] }]
      ∧ (ollamaBuildRequest ⟨['m'], [], ['p'], 0, [], []⟩ false).messages
        = [{ role := "user".toList, content := ['p'] }]
      ∧ (anthropicBuildRequest ⟨['m'], [], ['p'], 0, [], []⟩ false).system = [])
    ∧ ((openaiBuildRequest ⟨['m'], ['s'], ['p'], 0, [], []⟩ false).messages
        = [{ role := "system".toList, content := ['s'] },
           { role := "user".toList, content := ['p'] }]
      ∧ (ollamaBuildRequest ⟨['m'], ['s'], ['p'], 0, [], []⟩ false).messages
        = [{ role := "system".toList, content := ['s'] },
           { role := "user".toList, content := ['p'] }]
      ∧ (anthropicBuildRequest ⟨['m'], ['s'], ['p'], 0, [], []⟩ false).system = ['s']) :=
  ⟨(system_prompt_placement ⟨['m'], [], ['p'], 0, [], []⟩ false).1 rfl,
   (system_prompt_placement ⟨['m'], ['s'], ['p'], 0, [], []⟩ false).2.1 (by decide)⟩

/-- C7.  On a successfully decoded 200 body, openai and anthropic
`Complete` fail with the empty-response error exactly when there are zero
choices / zero content blocks, and succeed otherwise. -/
theorem complete_empty_response (req : Request) (r : openaiResponse)
    (a : anthropicResponse) :
    (r.choices = [] → openaiCompleteBody req r = .error .emptyResponse)
    ∧ (r.choices ≠ [] → ∃ resp, openaiCompleteBody req r = .ok resp)
    ∧ (a.content = [] → anthropicCompleteBody req a = .error .emptyResponse)
    ∧ (a.content ≠ [] → ∃ resp, anthropicCompleteBody req a = .ok resp) := by
  refine ⟨fun h => ?_, fun h => ?_, fun h => ?_, fun h => ?_⟩
  · simp [openaiCompleteBody, h]
  · cases hc : r.choices with
    | nil => exact absurd hc h
    | cons c cs =>
      exact ⟨{ Content := c.message.content, Model := req.Model,
               Usage := { PromptTokens := r.usage.prompt_tokens,
                          CompletionTokens := r.usage.completion_tokens } },
             by simp [openaiCompleteBody, hc]⟩
  · simp [anthropicCompleteBody, h]
  · exact ⟨{ Content := anthropicFirstText a.content, Model := req.Model,
             Usage := { PromptTokens := a.usage.input_tokens,
                        CompletionTokens := a.usage.output_tokens } },
           by simp [anthropicCompleteBody, h]⟩

/-- C7, witness: empty and one-element choice/content lists. -/
theorem complete_empty_response_witness :
    (openaiCompleteBody ⟨['m'], [], [], 0, [], []⟩ ⟨[], ⟨0, 0⟩, none⟩
        = .error .emptyResponse)
    ∧ (∃ resp, openaiCompleteBody ⟨['m'], [], [], 0, [], []⟩
        ⟨[⟨⟨[], ['4']⟩, ⟨[], []⟩⟩], ⟨5, 1⟩, none⟩ = .ok resp)
    ∧ (anthropicCompleteBody ⟨['m'], [], [], 0, [], []⟩ ⟨[], ⟨0, 0⟩⟩
        = .error .emptyResponse)
    ∧ (∃ resp, anthropicCompleteBody ⟨['m'], [], [], 0, [], []⟩
        ⟨[⟨"text".toList, ['h']⟩], ⟨5, 1⟩⟩ = .ok resp) :=
  ⟨(complete_empty_response ⟨['m'], [], [], 0, [], []⟩ ⟨[], ⟨0, 0⟩, none⟩
      ⟨[], ⟨0, 0⟩⟩).1 rfl,
   (complete_empty_response ⟨['m'], [], [], 0, [], []⟩
      ⟨[⟨⟨[], ['4']⟩, ⟨[], []⟩⟩], ⟨5, 1⟩, none⟩ ⟨[], ⟨0, 0⟩⟩).2.1 (by decide),
   (complete_empty_response ⟨['m'], [], [], 0, [], []⟩ ⟨[], ⟨0, 0⟩, none⟩
      ⟨[], ⟨0, 0⟩⟩).2.2.1 rfl,
   (complete_empty_response ⟨['m'], [], [], 0, [], []⟩ ⟨[], ⟨0, 0⟩, none⟩
      ⟨[⟨"text".toList, ['h']⟩], ⟨5, 1⟩⟩).2.2.2 (by decide)⟩

theorem trimSuffix_append_slash (b : Str) :
    trimSuffix (b ++ "/".toList) "/".toList = b := by
  have hs : ("/".toList).isSuffixOf (b ++ "/".toList) = true := by simp
  rw [trimSuffix, if_pos hs]
  simp

theorem trimSuffix_keep (b suf : Str) (h : hasSuffix b suf = false) :
    trimSuffix b suf = b := by
  rw [hasSuffix] at h
  rw [trimSuffix, if_neg]
  simp [h]

/-- C8.  For every request carrying a base-URL override that does not end
in a slash, appending a trailing slash to the override yields the identical
final completion endpoint, for all three adapters. -/
theorem endpoint_trailing_slash (m sy p : Str) (mt : Int) (k b : Str)
    (h1 : b ≠ []) (h2 : hasSuffix b "/".toList = false) :
    openaiEndpoint ⟨m, sy, p, mt, k, b ++ "/".toList⟩
        = openaiEndpoint ⟨m, sy, p, mt, k, b⟩
    ∧ anthropicEndpoint ⟨m, sy, p, mt, k, b ++ "/".toList⟩
        = anthropicEndpoint ⟨m, sy, p, mt, k, b⟩
    ∧ ollamaEndpoint ⟨m, sy, p, mt, k, b ++ "/".toList⟩
        = ollamaEndpoint ⟨m, sy, p, mt, k, b⟩ := by
  have hb : b ++ "/".toList ≠ [] := by simp
  have ht : trimSuffix (b ++ "/".toList) "/".toList = trimSuffix b "/".toList := by
    rw [trimSuffix_append_slash, trimSuffix_keep _ _ h2]
  refine ⟨?_, ?_, ?_⟩
  · simp only [openaiEndpoint]
    rw [if_pos hb, if_pos h1, ht]
  · simp only [anthropicEndpoint]
    rw [if_pos hb, if_pos h1, ht]
  · simp only [ollamaEndpoint]
    rw [if_neg hb, if_neg h1, ht]

/-- C8, witness at a concrete override URL. -/
theorem endpoint_trailing_slash_witness :
    openaiEndpoint ⟨[], [], [], 0, [], "http://h:8080".toList ++ "/".toList⟩
        = openaiEndpoint ⟨[], [], [], 0, [], "http://h:8080".toList⟩
    ∧ anthropicEndpoint ⟨[], [], [], 0, [], "http://h:8080".toList ++ "/".toList⟩
        = anthropicEndpoint ⟨[], [], [], 0, [], "http://h:8080".toList⟩
    ∧ ollamaEndpoint ⟨[], [], [], 0, [], "http://h:8080".toList ++ "/".toList⟩
        = ollamaEndpoint ⟨[], [], [], 0, [], "http://h:8080".toList⟩ :=
  endpoint_trailing_slash [] [] [] 0 [] ("http://h:8080".toList)
    (by decide) (by decide)

/-- C9.  The ollama header builder: with an empty API key no Authorization
header is set at all; with a non-empty key `k` the headers are exactly
Content-Type followed by an Authorization header valued `Bearer k`. -/
theorem ollama_auth_header (k : Str) :
    (k = [] → ∀ h ∈ ollamaSetHeaders k, h.1 ≠ "Authorization".toList)
    ∧ (k ≠ [] →
        ollamaSetHeaders k
          = [("Content-Type".toList, "application/json".toList),
             ("Authorization".toList, "Bearer ".toList ++ k)]) := by
  constructor
  · intro hk h hmem
    subst hk
    simp [ollamaSetHeaders] at hmem
    rw [hmem]
    decide
  · intro hk
    simp [ollamaSetHeaders, hk]

/-- C9, witness: no key, then key `k`. -/
theorem ollama_auth_header_witness :
    (∀ h ∈ ollamaSetHeaders [], h.1 ≠ "Authorization".toList)
    ∧ ollamaSetHeaders ['k']
        = [("Content-Type".toList, "application/json".toList),
           ("Authorization".toList, "Bearer ".toList ++ ['k'])] :=
  ⟨(ollama_auth_header []).1 rfl, (ollama_auth_header ['k']).2 (by decide)⟩

theorem anthropicFirstText_of_none (l : List anthropicContent)
    (h : ∀ c ∈ l, c.type ≠ "text".toList) : anthropicFirstText l = [] := by
  induction l with
  | nil => rfl
  | cons c cs ih =>
    rw [anthropicFirstText, if_neg (h c (List.mem_cons_self _ _))]
    exact ih fun x hx => h x (List.mem_cons_of_mem _ hx)

theorem anthropicFirstText_of_find (l : List anthropicContent)
    (c₀ : anthropicContent)
    (h : l.find? (fun c => c.type == "text".toList) = some c₀) :
    anthropicFirstText l = c₀.text := by
  induction l with
  | nil => simp at h
  | cons c cs ih =>
    by_cases hc : c.type = "text".toList
    · rw [List.find?_cons_of_pos _ (by simp [hc])] at h
      rw [anthropicFirstText, if_pos hc]
      cases h
      rfl
    · rw [List.find?_cons_of_neg _ (by simpa using hc)] at h
      rw [anthropicFirstText, if_neg hc]
      exact ih h

/-- C10.  On a 200 body with a non-empty content array holding no `text`
block, anthropic `Complete` succeeds with empty content; and whenever a
first `text` block exists, the returned content is exactly its text. -/
theorem anthropic_first_text_content (req : Request) (r : anthropicResponse) :
    (r.content ≠ [] → (∀ c ∈ r.content, c.type ≠ "text".toList) →
      anthropicCompleteBody req r
        = .ok { Content := [], Model := req.Model,
                Usage := { PromptTokens := r.usage.input_tokens,
                           CompletionTokens := r.usage.output_tokens } })
    ∧ (∀ c₀, r.content.find? (fun c => c.type == "text".toList) = some c₀ →
      anthropicCompleteBody req r
        = .ok { Content := c₀.text, Model := req.Model,
                Usage := { PromptTokens := r.usage.input_tokens,
                           CompletionTokens := r.usage.output_tokens } }) := by
  constructor
  · intro h hnone
    unfold anthropicCompleteBody
    rw [if_neg h, anthropicFirstText_of_none _ hnone]
  · intro c₀ hf
    have h : r.content ≠ [] := by
      intro he
      rw [he] at hf
      simp at hf
    unfold anthropicCompleteBody
    rw [if_neg h, anthropicFirstText_of_find _ _ hf]

/-- C10, witness: a tool-use-only content array, then one with a text block
in second position. -/
theorem anthropic_first_text_content_witness :
    anthropicCompleteBody ⟨['m'], [], [], 0, [], []⟩
        ⟨[⟨"tool_use".toList, ['z']⟩], ⟨2, 3⟩⟩
      = .ok { Content := [], Model := ['m'],
              Usage := { PromptTokens := 2, CompletionTokens := 3 } }
    ∧ anthropicCompleteBody ⟨['m'], [], [], 0, [], []⟩
        ⟨[⟨"tool_use".toList, ['z']⟩, ⟨"text".toList, ['h', 'i']⟩], ⟨2, 3⟩⟩
      = .ok { Content := ['h', 'i'], Model := ['m'],
              Usage := { PromptTokens := 2, CompletionTokens := 3 } } :=
  ⟨(anthropic_first_text_content ⟨['m'], [], [], 0, [], []⟩
      ⟨[⟨"tool_use".toList, ['z']⟩], ⟨2, 3⟩⟩).1 (by decide) (by decide),
   (anthropic_first_text_content ⟨['m'], [], [], 0, [], []⟩
      ⟨[⟨"tool_use".toList, ['z']⟩, ⟨"text".toList, ['h', 'i']⟩], ⟨2, 3⟩⟩).2
     ⟨"text".toList, ['h', 'i']⟩ (by decide)⟩

end Sage
